import Mathlib

/-!
Shallow embedding of `FMuenke/handcrafted_image_representations` (Python) in
Lean 4, covering the code that the frozen claims C1–C10 are about:

* `classic_image_classification/utils/data_split.py` — `split_random`,
  `split_fixed`, `split_tags`;
* `handcrafted_image_representations/machine_learning/feature_extractor.py` —
  `validate_feature_extraction_settings`, `FeatureExtractor.__init__`,
  `FeatureExtractor.resize`, `FeatureExtractor.extract_x`,
  `FeatureExtractor.extract_trainings_data`;
* `classic_image_classification/machine_learning/classifier.py` —
  `Classifier.predict`, `Classifier.save`, `Classifier.load`;
* `handcrafted_image_representations/machine_learning/outlier_detector.py` —
  `OutlierByDistance` and the best-tracking loops of
  `OptimizingImageClassifier.fit` and `OutlierDetectorAggregatorSearch.fit`.

Conventions of the embedding:

* Python numbers are modelled as `ℚ` (exact arithmetic; floating-point
  rounding is abstracted away, as usual for a shallow embedding).
* Python `None` for an optional value is `Option.none`.
* A Python function that can raise is `Except String _`; the string is the
  exception class / message.
* External collaborators (cv2, sklearn models, descriptor computation,
  joblib, the file system) are parameters of the embedding: an abstract
  model record, a descriptor oracle, and a key/value store for files.
-/

namespace HIR

/-! ## data_split.py

`split_random` draws `np.random.randint(100) / 100` per tag; the stream of
random draws is made explicit as a list of naturals (each reduced mod 100,
as `np.random.randint(100)` produces values in `0..99`).
`split_fixed` sends tag `i` to the train list iff `i / 100 >= ratio`
(true division, hence the `ℚ` comparison). `split_tags` dispatches on the
mode string, raising on an unknown mode. -/

def split_random (draws : List ℕ) (list_of_tags : List α) (r : ℚ) :
    List α × List α :=
  match draws, list_of_tags with
  | _, [] => ([], [])
  | [], _ => ([], [])
  | d :: ds, t :: ts =>
    let (tr, te) := split_random ds ts r
    if ((d % 100 : ℕ) : ℚ) / 100 > r then (t :: tr, te) else (tr, t :: te)

def split_fixed_aux (i : ℕ) (r : ℚ) : List α → List α × List α
  | [] => ([], [])
  | t :: ts =>
    let (tr, te) := split_fixed_aux (i + 1) r ts
    if (i : ℚ) / 100 ≥ r then (t :: tr, te) else (tr, t :: te)

def split_fixed (list_of_tags : List α) (r : ℚ) : List α × List α :=
  split_fixed_aux 0 r list_of_tags

def split_tags (draws : List ℕ) (list_of_tags : List α) (r : ℚ)
    (mode : String) : Except String (List α × List α) :=
  if mode = "random" then .ok (split_random draws list_of_tags r)
  else if mode = "fixed" then .ok (split_fixed list_of_tags r)
  else .error ("Unknown mode - " ++ mode ++ " -")

/-! ## FeatureExtractor.resize

The image is modelled by its shape `(o_height, o_width) : ℕ × ℕ`; the claims
and the spec only constrain the output dimensions (interpolation internals
are an explicit non-goal of the spec).  The `height`/`width` parameters are
`Option ℚ` (`none` = Python `None`).

The source, line by line:
* `if height is None and width is None: return image`;
* `if height < 1 or width < 1:` — when exactly one of the two is `None`,
  this comparison is `None < 1`, which raises `TypeError` in Python 3;
  the embedding returns that error;
* inside that branch both dimensions are multiplied by the original shape
  and truncated by `int(...)`;
* the later `if height is None` / `if width is None` blocks are kept, but
  they are reachable only with both dimensions non-`None` (otherwise the
  `TypeError` already fired), so they never rewrite anything;
* `cv2.resize(image, (w, h))` yields an image of shape `(h, w)`.

`pyInt` is Python `int(...)` on a rational: truncation toward zero. -/

def pyInt (q : ℚ) : ℤ := q.num / q.den

def resize (image : ℕ × ℕ) (height width : Option ℚ) :
    Except String (ℤ × ℤ) :=
  match height, width with
  | none, none => .ok ((image.1 : ℤ), (image.2 : ℤ))
  | _, _ =>
    let o_height := image.1
    let o_width := image.2
    match height, width with
    | none, _ => .error "TypeError"
    | _, none => .error "TypeError"
    | some h, some w =>
      if h < 1 ∨ w < 1 then
        .ok (pyInt ((o_height : ℚ) * h), pyInt ((o_width : ℚ) * w))
      else
        .ok (pyInt h, pyInt w)

/-! ## FeatureExtractor.__init__ — the `features_to_use` wrapping

Python values relevant to the constructor argument are modelled by `PyVal`.
The source tests `type(features_to_use) is not list()`: `list()` evaluates
to a fresh empty *list object*, and `is` is object identity, so the test
compares a *type object* (`type(features_to_use)`) with a *list instance* —
two objects that are never identical, whatever `features_to_use` is.
`typeIsListInstance` embeds `type(v) is list()`. -/

inductive PyVal where
  | str (s : String)
  | int (n : ℤ)
  | list (l : List PyVal)

mutual

/-- Python `==` on the modelled values (structural equality). -/
def PyVal.beq : PyVal → PyVal → Bool
  | .str a, .str b => a = b
  | .int a, .int b => a = b
  | .list a, .list b => PyVal.beqList a b
  | _, _ => false

def PyVal.beqList : List PyVal → List PyVal → Bool
  | [], [] => true
  | a :: as, b :: bs => PyVal.beq a b && PyVal.beqList as bs
  | _, _ => false

end

instance : BEq PyVal := ⟨PyVal.beq⟩

/-- `p` occurs at the head of `l`. -/
def listHasPre (p l : List Char) : Bool :=
  match p, l with
  | [], _ => true
  | _, [] => false
  | a :: as, b :: bs => a = b && listHasPre as bs

/-- `p` occurs contiguously somewhere in `l` (Python `s in t` on strings). -/
def listHasSub (p : List Char) : List Char → Bool
  | [] => listHasPre p []
  | b :: bs => listHasPre p (b :: bs) || listHasSub p bs

/-- `type(v) is list()`: object identity between the type object `type(v)`
and a freshly allocated empty list.  A type object is never the same object
as a list instance, so this is `false` for every `v`. -/
def typeIsListInstance (_v : PyVal) : Bool := false

/-- Python `s in v` for a string literal `s`: substring test when `v` is a
string, membership when `v` is a list, `TypeError` otherwise (the source
only applies it to strings and lists; the embedding returns `false` then). -/
def pyContains (v : PyVal) (s : String) : Bool :=
  match v with
  | .str t => listHasSub s.toList t.toList
  | .list l => l.any (fun x => PyVal.beq x (.str s))
  | _ => false

/-- `validate_feature_extraction_settings(sampling_method, features_to_use)`:
coerces the sampling method, returns `features_to_use` unchanged. -/
def validate_feature_extraction_settings (sampling_method : String)
    (features_to_use : PyVal) : String × PyVal :=
  if sampling_method ∉ ["kaze", "akaze"] ∧ pyContains features_to_use "kaze"
  then ("kaze", features_to_use)
  else if sampling_method = "sift" ∧ ¬ pyContains features_to_use "sift"
  then ("kaze", features_to_use)
  else (sampling_method, features_to_use)

/-- The `features_to_use` field stored by `FeatureExtractor.__init__`:
after `validate_feature_extraction_settings`, the constructor executes
`if type(features_to_use) is not list(): features_to_use = [features_to_use]`
and stores the result. -/
def storedFeaturesToUse (sampling_method : String) (v : PyVal) : PyVal :=
  let fv := (validate_feature_extraction_settings sampling_method v).2
  if typeIsListInstance fv = false then .list [fv] else fv

/-! ## FeatureExtractor.extract_x / extract_trainings_data

A feature matrix (`numpy` 2-D array) is `Mat`: rows = sampled key points,
columns = descriptor dimensions.  `np.concatenate(x, axis=1)` on matrices
with equal row counts appends the rows pairwise (`hconcatAll`).

The descriptor computation (`DescriptorSet(feature).compute(image, kp_set)`)
is an external collaborator: it is a parameter `desc : String → Img → Option Mat`
(`none` = the descriptor yielded no features).  The resize step inside
`extract_x` acts on image *content*, which is external (cv2); it is the
parameter `resizeFn`, which may raise (see `resize` above for the
shape-level behaviour). -/

def Mat := List (List ℚ)

def hconcatAll : List (List (List ℚ)) → List (List ℚ)
  | [] => []
  | [m] => m
  | m :: ms => List.zipWith (fun r s => r ++ s) m (hconcatAll ms)

/-- `FeatureExtractor.extract_x`: resize, run every configured descriptor,
keep the non-`None` outputs; `None` when none survive, the single matrix
when one does, the column-wise concatenation otherwise. -/
def extract_x {Img : Type} (resizeFn : Img → Except String Img)
    (desc : String → Img → Option Mat) (features_to_use : List String)
    (image : Img) : Except String (Option Mat) := do
  let image ← resizeFn image
  let x := features_to_use.filterMap (fun f => desc f image)
  match x with
  | [] => return none
  | [m] => return (some m)
  | m :: ms => return (some (hconcatAll (m :: ms)))

/-- A dataset tag: `load_data()` gives the image, `load_y()` the label. -/
structure Tag (Img : Type) where
  data : Img
  y : ℤ

/-- `FeatureExtractor.extract_trainings_data`: per tag, append
`extract_x(tag.load_data())` to `x` and `tag.load_y()` to `y`; then
`assert x is not None, "No Feature was activated"`.  The Python variable
`x` always holds a *list* object (built by the loop), never `None`; the
embedding makes the asserted value explicit as `xVar : Option _ := some x`
so the assert condition is exactly the source's `x is not None`. -/
def extract_trainings_data {Img : Type} (resizeFn : Img → Except String Img)
    (desc : String → Img → Option Mat) (features_to_use : List String)
    (tags : List (Tag Img)) : Except String (List (Option Mat) × List ℤ) := do
  let x ← tags.mapM (fun t => extract_x resizeFn desc features_to_use t.data)
  let y := tags.map (fun t => t.y)
  let xVar : Option (List (Option Mat)) := some x
  if xVar.isNone then
    Except.error "AssertionError: No Feature was activated"
  else
    return (x, y)

/-! ## Classifier.predict (classifier.py)

The underlying sklearn estimator is abstract: `predictF` is `.predict`;
`predictProba` is `.predict_proba`, where `none` means the attribute does
not exist (calling it raises `AttributeError`) and `some f` with
`f x = .error e` means the call itself raised.  Both failure shapes are
caught by the source's bare `except:`.

`np.argmax` / `np.max` on a 2-D array operate on the *flattened* array;
`np.argmax` returns the first index attaining the maximum, and both raise
`ValueError` on an empty array (also caught by the bare `except:`). -/

structure SkModel where
  predictF : List (List ℚ) → List ℤ
  predictProba : Option (List (List ℚ) → Except String (List (List ℚ)))

def listMax : List ℚ → ℚ
  | [] => 0
  | [a] => a
  | a :: b :: rest => max a (listMax (b :: rest))

def listMin : List ℚ → ℚ
  | [] => 0
  | [a] => a
  | a :: b :: rest => min a (listMin (b :: rest))

/-- First index of the maximum (np.argmax on a 1-D array). -/
def listArgmax : List ℚ → ℕ
  | [] => 0
  | [_] => 0
  | a :: b :: rest =>
    if a ≥ listMax (b :: rest) then 0 else 1 + listArgmax (b :: rest)

/-- The classifier state: `opt` and `class_mapping` as stored/serialized
dictionaries, `classifier` the fitted estimator (`none` before `fit`).
`best_params` / `best_score` are not persisted and play no role in the
claims, so they are omitted. -/
structure Classifier where
  opt : PyVal
  class_mapping : Option (List (String × ℤ))
  class_mapping_inv : Option (List (ℤ × String))
  classifier : Option SkModel

/-- `Classifier.predict(x, get_confidence=True)` for a fitted classifier:
`try: prob = predict_proba(x); return [np.argmax(prob)], np.max(prob)`
with a bare `except:` returning `(predict(x), 1.00)`. -/
def Classifier.predictWithConfidence (m : SkModel) (x : List (List ℚ)) :
    List ℤ × ℚ :=
  match m.predictProba with
  | none => (m.predictF x, 1)
  | some f =>
    match f x with
    | .error _ => (m.predictF x, 1)
    | .ok prob =>
      if prob.flatten = [] then (m.predictF x, 1)
      else (([(listArgmax prob.flatten : ℤ)]), listMax prob.flatten)

/-- `Classifier.predict(x)` (no confidence) for a fitted classifier. -/
def Classifier.predictPlain (m : SkModel) (x : List (List ℚ)) : List ℤ :=
  m.predictF x

/-- The condition under which the source's bare `except:` branch runs:
`predict_proba` is absent, or the call raised, or the flattened
probability array is empty (so `np.argmax` raised). -/
def probaTryFails (m : SkModel) (x : List (List ℚ)) : Prop :=
  match m.predictProba with
  | none => True
  | some f =>
    match f x with
    | .error _ => True
    | .ok prob => prob.flatten = []

/-- Explicit capability check of the spec: does the model expose a
probability-estimate operation? -/
def supportsProba (m : SkModel) : Prop := m.predictProba ≠ none

/-! ## Classifier.save / Classifier.load

The file system is a string-keyed store of artifacts.  `save` runs
`check_n_make_dir(model_path, clean=True)` — removing everything below
`model_path` — then writes `class_mapping.json`, `pipeline_opt.json` and
(when the classifier is fitted) `classifier.pkl`.  `load` reads the three
files, raising on a missing one (fatal I/O), and rebuilds
`class_mapping_inv` when the loaded mapping is not `None`. -/

/-- The two result shapes of `Classifier.predict`: a label batch, or a
label batch with a confidence value. -/
inductive PredOut where
  | labels (l : List ℤ)
  | withConf (l : List ℤ) (conf : ℚ)

/-- `Classifier.predict` on the classifier object: dispatches on
`get_confidence`; before `fit`/`load` the underlying estimator is `None`
and every path raises `AttributeError`. -/
def Classifier.predict (c : Classifier) (x : List (List ℚ))
    (get_confidence : Bool) : Except String PredOut :=
  match c.classifier with
  | none => .error "AttributeError"
  | some m =>
    if get_confidence then
      .ok (.withConf (Classifier.predictWithConfidence m x).1
        (Classifier.predictWithConfidence m x).2)
    else
      .ok (.labels (Classifier.predictPlain m x))

inductive Artifact where
  | dictA (d : Option (List (String × ℤ)))
  | optA (o : PyVal)
  | modelA (m : SkModel)

abbrev Store := String → Option Artifact

def pathJoin (a b : String) : String := a ++ "/" ++ b

def storeWrite (s : Store) (k : String) (a : Artifact) : Store :=
  fun p => if p = k then some a else s p

def storeClean (s : Store) (dir : String) : Store :=
  fun p => if (dir ++ "/").isPrefixOf p then none else s p

def Classifier.save (c : Classifier) (model_path : String) (s : Store) :
    Store :=
  let s := storeClean s model_path
  let s := storeWrite s (pathJoin model_path "class_mapping.json")
    (.dictA c.class_mapping)
  let s := storeWrite s (pathJoin model_path "pipeline_opt.json")
    (.optA c.opt)
  match c.classifier with
  | none => s
  | some m => storeWrite s (pathJoin model_path "classifier.pkl") (.modelA m)

def Classifier.load (s : Store) (model_path : String) :
    Except String Classifier :=
  match s (pathJoin model_path "class_mapping.json"),
        s (pathJoin model_path "pipeline_opt.json"),
        s (pathJoin model_path "classifier.pkl") with
  | some (.dictA cm), some (.optA o), some (.modelA m) =>
    .ok { opt := o, class_mapping := cm,
          class_mapping_inv :=
            match cm with
            | none => none
            | some d => some (d.map (fun kv => (kv.2, kv.1))),
          classifier := some m }
  | _, _, _ => .error "FileNotFoundError"

/-! ## OutlierByDistance (outlier_detector.py)

`fit` stores `x_mean = np.mean(x, axis=0)` (column means),
`x_std = np.std(x, axis=0)` (population standard deviation per column) with
zero entries floored to `1e-9`, then records the max/min of
`compute_distance` over the training rows.

Representation note: `np.std` and the Euclidean distance both involve a
square root, which is irrational in general.  The embedding therefore
carries *squares* throughout, exactly:

* `x_var` holds `x_std ** 2` (the flooring `x_std == 0 ↦ 1e-9` becomes
  `var == 0 ↦ (1e-9)^2`, since `std = 0 ↔ var = 0`);
* `((xi - mean_i) / std_i)^2 = (xi - mean_i)^2 / var_i`, so
  `compute_distance_sq` is exactly the square of the source's
  `compute_distance`;
* `max_distance_sq` is the square of the source's `max_distance`
  (`√` is strictly monotone on nonnegatives, so the max of the distances
  is the distance whose square is the max of the squares);
* the comparison `distance > self.max_distance` between two nonnegative
  reals is equivalent to `distance² > max_distance²`, so `predict` is
  exact;
* the source's `score_sample(x) = -compute_distance(x)`, i.e.
  `-√(compute_distance_sq x)`; every magnitude/order fact about the score
  is the reversed fact about `compute_distance_sq`. -/

/-- The columns of a (rectangular) matrix: `np.mean(x, axis=0)` and
`np.std(x, axis=0)` are per-column statistics, embedded as maps over the
column list. -/
def columns : List (List ℚ) → List (List ℚ)
  | [] => []
  | [r] => r.map (fun v => [v])
  | r :: rs => List.zipWith (fun v c => v :: c) r (columns rs)

def colMean (c : List ℚ) : ℚ := c.sum / c.length

def colVar (c : List ℚ) : ℚ :=
  (c.map (fun v => (v - colMean c) ^ 2)).sum / c.length

structure OutlierByDistance where
  x_mean : List ℚ
  x_var : List ℚ
  max_distance_sq : ℚ
  min_distance_sq : ℚ

/-- Square of `OutlierByDistance.compute_distance`:
`np.sqrt(np.sum(np.square((x - x_mean) / x_std), axis=1))` on one row. -/
def OutlierByDistance.compute_distance_sq (st : OutlierByDistance)
    (x : List ℚ) : ℚ :=
  (List.zipWith (fun mv xi => (xi - mv.1) ^ 2 / mv.2) (st.x_mean.zip st.x_var)
    x).sum

def distSq (mean var : List ℚ) (x : List ℚ) : ℚ :=
  (List.zipWith (fun mv xi => (xi - mv.1) ^ 2 / mv.2) (mean.zip var) x).sum

/-- `OutlierByDistance.fit`. -/
def OutlierByDistance.fit (x : List (List ℚ)) : OutlierByDistance :=
  let cols := columns x
  let mean := cols.map colMean
  let var := cols.map (fun c =>
    if colVar c = 0 then (1 / 10 ^ 9) ^ 2 else colVar c)
  let dists := x.map (distSq mean var)
  { x_mean := mean, x_var := var,
    max_distance_sq := listMax dists, min_distance_sq := listMin dists }

/-- Square of (the negation of) `OutlierByDistance.score_sample` on one row:
the source returns `-1 * compute_distance(x)`, i.e. `-√(score_sample_sq)`. -/
def OutlierByDistance.score_sample_sq (st : OutlierByDistance)
    (x : List ℚ) : ℚ :=
  st.compute_distance_sq x

/-- `OutlierByDistance.predict` on one row: `-1` where
`distance > max_distance`, `+1` where `distance <= max_distance`
(equivalently on the squares; the two assignments of the source cover
disjoint, exhaustive index sets). -/
def OutlierByDistance.predictRow (st : OutlierByDistance) (x : List ℚ) : ℤ :=
  if st.compute_distance_sq x > st.max_distance_sq then -1 else 1

def OutlierByDistance.predict (st : OutlierByDistance)
    (x : List (List ℚ)) : List ℤ :=
  x.map st.predictRow

/-! ## The best-tracking loop of OptimizingImageClassifier.fit

The loop body (lines 71–99) evaluates one `(aggregator, classifier)` pair,
obtains `f_1_score = cls.evaluate(...)`, and runs
`if f_1_score >= best_f1_score:` — on success it records the score and the
pair, resolves `current_opt` from the pair's options, builds the final
`ImageClassifier` and immediately `save`s it to the model folder.

The embedding abstracts one evaluated pair as `SupCandidate` (aggregator
and classifier of abstract types `A` and `C`, with the macro-F1 its
evaluation produced) and the persistent side effect as the `saved` field:
the model-folder content is the checkpointed pair with its resolved
pipeline, identified by the pair and its score. -/

structure SupCandidate (A C : Type) where
  agg : A
  cls : C
  score : ℚ

structure SupSearchState (A C : Type) where
  best_f1_score : ℚ
  best_candidate : Option (A × C)
  saved : Option ((A × C) × ℚ)

namespace OptimizingImageClassifier

def fitInit (A C : Type) : SupSearchState A C :=
  { best_f1_score := 0, best_candidate := none, saved := none }

def fitStep {A C : Type} (st : SupSearchState A C) (c : SupCandidate A C) :
    SupSearchState A C :=
  if c.score ≥ st.best_f1_score then
    { best_f1_score := c.score,
      best_candidate := some (c.agg, c.cls),
      saved := some ((c.agg, c.cls), c.score) }
  else st

def fitRun {A C : Type} (st : SupSearchState A C) :
    List (SupCandidate A C) → SupSearchState A C
  | [] => st
  | c :: cs => fitRun (fitStep st c) cs

end OptimizingImageClassifier

/-! ## The best-tracking loop of OutlierDetectorAggregatorSearch.fit

Lines 270–287: per aggregator candidate, an AUROC `score` is computed and
`if score > best_score:` records it (and saves).  Abstracted the same way;
the candidate is the aggregator with its AUROC. -/

structure OutSearchState (A : Type) where
  best_score : ℚ
  best_candidate : Option A
  saved : Option (A × ℚ)

namespace OutlierDetectorAggregatorSearch

def fitInit (A : Type) : OutSearchState A :=
  { best_score := 0, best_candidate := none, saved := none }

def fitStep {A : Type} (st : OutSearchState A) (agg : A) (score : ℚ) :
    OutSearchState A :=
  if score > st.best_score then
    { best_score := score, best_candidate := some agg,
      saved := some (agg, score) }
  else st

def fitRun {A : Type} (st : OutSearchState A) :
    List (A × ℚ) → OutSearchState A
  | [] => st
  | c :: cs => fitRun (fitStep st c.1 c.2) cs

end OutlierDetectorAggregatorSearch

/-- Checkpoint coherence of a supervised-search state: the model-folder
content is exactly the recorded best candidate together with the recorded
best score (cf. `OptimizingImageClassifier.fitStep`, which writes all three
fields together). -/
def SupCoherent {A C : Type} (st : SupSearchState A C) : Prop :=
  st.saved = st.best_candidate.map (fun pr => (pr, st.best_f1_score))

/-! # Theorems -/

section DataSplit

variable {α : Type}

lemma split_fixed_aux_of_ge :
    ∀ (ts : List α) (i : ℕ), 20 ≤ i →
      split_fixed_aux i ((1 : ℚ)/5) ts = (ts, []) := by
  intro ts
  induction ts with
  | nil => intro i _; rfl
  | cons t ts ih =>
    intro i h
    have hc : ((1 : ℚ)/5) ≤ (i : ℚ) / 100 := by
      have h20 : (20 : ℚ) ≤ (i : ℚ) := by exact_mod_cast h
      linarith
    simp only [split_fixed_aux, ih (i + 1) (by omega)]
    split_ifs with hif
    · rfl
    · exact (hif hc).elim

lemma split_fixed_aux_take :
    ∀ (ts : List α) (i : ℕ), i ≤ 20 →
      split_fixed_aux i ((1 : ℚ)/5) ts =
        (ts.drop (20 - i), ts.take (20 - i)) := by
  intro ts
  induction ts with
  | nil => intro i _; simp [split_fixed_aux]
  | cons t ts ih =>
    intro i h
    by_cases h20 : i = 20
    · subst h20
      rw [split_fixed_aux_of_ge (t :: ts) 20 (by omega)]
      simp
    · have hi : i < 20 := by omega
      have hc : ¬ ((1 : ℚ)/5 ≤ (i : ℚ) / 100) := by
        have hq : (i : ℚ) < 20 := by exact_mod_cast hi
        intro hle; linarith
      simp only [split_fixed_aux, ih (i + 1) (by omega)]
      split_ifs with hif
      · exact (hc hif).elim
      · have hs : 20 - i = (20 - (i + 1)) + 1 := by omega
        rw [hs]
        simp

/-- C7: with ratio `0.2 = 1/5`, the fixed-mode split over a list of 100
tags deterministically puts the tags at positions 0–19 into the test set
and those at positions 20–99 into the train set, in their original order
(both for `split_fixed` directly and through `split_tags` with mode
`"fixed"`; being pure functions of their arguments, the result does not
depend on call order or on the random-draw stream). -/
theorem claim_C7 (ts : List α) (draws : List ℕ) (_h : ts.length = 100) :
    split_fixed ts ((1 : ℚ)/5) = (ts.drop 20, ts.take 20) ∧
    split_tags draws ts ((1 : ℚ)/5) "fixed" =
      .ok (ts.drop 20, ts.take 20) := by
  have h1 : split_fixed ts ((1 : ℚ)/5) = (ts.drop 20, ts.take 20) := by
    unfold split_fixed
    rw [split_fixed_aux_take ts 0 (by omega)]
  refine ⟨h1, ?_⟩
  rw [split_tags, if_neg (by decide), if_pos rfl, h1]

theorem claim_C7_witness :
    (List.range 100).length = 100 ∧
    split_fixed (List.range 100) ((1 : ℚ)/5) =
      ((List.range 100).drop 20, (List.range 100).take 20) ∧
    split_tags [] (List.range 100) ((1 : ℚ)/5) "fixed" =
      .ok ((List.range 100).drop 20, (List.range 100).take 20) := by
  have h := claim_C7 (List.range 100) [] (by simp)
  exact ⟨by simp, h.1, h.2⟩

end DataSplit

section FeaturesToUse

lemma validate_snd (sm : String) (v : PyVal) :
    (validate_feature_extraction_settings sm v).2 = v := by
  unfold validate_feature_extraction_settings
  split_ifs <;> rfl

/-- C10: whatever value `v` is passed as `features_to_use` — a string, or
already a list of feature names — `FeatureExtractor.__init__` stores the
single-element list `[v]`, because its membership test
`type(features_to_use) is not list()` compares the type object with a
fresh empty-list object and hence never recognises `v` as a list; in
particular, a passed list is wrapped once more and the stored value is
never the passed list itself. -/
theorem claim_C10 (sm : String) (v : PyVal) :
    storedFeaturesToUse sm v = .list [v] ∧
    ∀ l : List PyVal, storedFeaturesToUse sm (.list l) ≠ .list l := by
  constructor
  · unfold storedFeaturesToUse
    rw [validate_snd]
    rfl
  · intro l hl
    unfold storedFeaturesToUse at hl
    rw [validate_snd] at hl
    simp only [typeIsListInstance, if_pos rfl] at hl
    have hsz := congrArg sizeOf hl
    simp at hsz
    omega

theorem claim_C10_witness :
    storedFeaturesToUse "dense" (.str "hog") = .list [.str "hog"] ∧
    storedFeaturesToUse "dense" (.list [.str "hog"]) ≠
      .list [.str "hog"] :=
  ⟨(claim_C10 "dense" (.str "hog")).1,
   (claim_C10 "dense" (.str "hog")).2 [.str "hog"]⟩

end FeaturesToUse

section Resize

/-- C5 (code bug): `FeatureExtractor.resize` on an image of shape
`(100, 200)` returns the image unchanged when both target dimensions are
`None`; resizes to the exact pixel dimensions when both are absolute
values; scales both dimensions proportionally when both are fractions
`< 1`; but when exactly one dimension is `None` it evaluates
`height < 1 or width < 1` on `None`, raising `TypeError` — the
aspect-preserving inference branch of the source (lines 79–82) is dead
code, so the claim's fourth case never happens. -/
theorem claim_C5 :
    resize (100, 200) none none = .ok (100, 200) ∧
    resize (100, 200) (some 50) (some 80) = .ok (50, 80) ∧
    resize (100, 200) (some (1/2)) (some (1/4)) = .ok (50, 50) ∧
    resize (100, 200) none (some 50) = .error "TypeError" ∧
    resize (100, 200) (some 50) none = .error "TypeError" := by
  refine ⟨rfl, ?_, ?_, rfl, rfl⟩
  · rw [resize, if_neg (by norm_num)]
    norm_num [pyInt]
  · rw [resize, if_pos (by norm_num)]
    norm_num [pyInt]

end Resize

section ExtractTrainingsData

/-- C2 (code bug): with a single configured descriptor that yields no
features (`dc_set.compute` returns `None`), `extract_x` returns the
explicit null marker `None` for the tag — as claimed — but on a batch
whose *every* tag yields no representation, `extract_trainings_data`
returns successfully (`([None], [label])`): the aggregate-level
`assert x is not None` tests the accumulator list, which is never `None`,
so the assertion cannot fail, contradicting the claimed fail-loudly
condition. -/
theorem claim_C2 :
    @extract_x Unit (fun i => .ok i) (fun _ _ => none) ["hog"] () =
      .ok none ∧
    @extract_trainings_data Unit (fun i => .ok i) (fun _ _ => none)
      ["hog"] [⟨(), 3⟩] = .ok ([none], [3]) := by
  exact ⟨rfl, rfl⟩

end ExtractTrainingsData

section OutlierBestTracking

/-- C6: in `OutlierDetectorAggregatorSearch.fit`, a candidate replaces the
recorded best exactly when its AUROC is strictly greater than the current
best score; on a strictly-greater score the state becomes that candidate
(with its score checkpointed), otherwise — in particular on a tie — the
state is unchanged. -/
theorem claim_C6 {A : Type} (st : OutSearchState A) (agg : A) (s : ℚ) :
    (st.best_score < s →
      OutlierDetectorAggregatorSearch.fitStep st agg s =
        ⟨s, some agg, some (agg, s)⟩) ∧
    (¬ st.best_score < s →
      OutlierDetectorAggregatorSearch.fitStep st agg s = st) ∧
    (s = st.best_score →
      OutlierDetectorAggregatorSearch.fitStep st agg s = st) := by
  refine ⟨fun h => ?_, fun h => ?_, fun h => ?_⟩
  · rw [OutlierDetectorAggregatorSearch.fitStep, if_pos h]
  · rw [OutlierDetectorAggregatorSearch.fitStep, if_neg h]
  · rw [OutlierDetectorAggregatorSearch.fitStep, if_neg (by rw [h]; exact lt_irrefl _)]

theorem claim_C6_witness :
    OutlierDetectorAggregatorSearch.fitStep
        (OutlierDetectorAggregatorSearch.fitInit ℕ) 7 1 =
      ⟨1, some 7, some (7, 1)⟩ ∧
    OutlierDetectorAggregatorSearch.fitStep
        (⟨1, some 7, some (7, 1)⟩ : OutSearchState ℕ) 8 1 =
      ⟨1, some 7, some (7, 1)⟩ :=
  ⟨(claim_C6 _ 7 1).1 (by decide),
   (claim_C6 (⟨1, some 7, some (7, 1)⟩ : OutSearchState ℕ) 8 1).2.2 rfl⟩

end OutlierBestTracking

section Confidence

/-- C3 counterexample: a fitted model that *does* expose the
probability-estimate operation (`supportsProba`) but whose
`predict_proba` call raises still triggers the full-confidence (1.0)
fallback — the source's bare `except:` is a blanket recovery, not an
explicit capability check, so the claimed "if and only if the model does
not expose a probability-estimate operation" is false. -/
theorem claim_C3_counterexample :
    supportsProba
      { predictF := fun _ => [0],
        predictProba := some (fun _ => .error "ValueError") } ∧
    Classifier.predictWithConfidence
      { predictF := fun _ => [0],
        predictProba := some (fun _ => .error "ValueError") } [[1]] =
      ([0], 1) := by
  exact ⟨by simp [supportsProba], rfl⟩

/-- C3 (amended): the full-confidence (1.0) fallback of
`predict(x, get_confidence=True)` occurs exactly when the `predict_proba`
try-block fails to complete — the attribute is missing, the call raises,
or the probability array is empty so `np.argmax` raises — i.e. it is a
catch-all on failure rather than an explicit capability check; a missing
capability is merely one of the triggering conditions. -/
theorem claim_C3 (m : SkModel) (x : List (List ℚ)) :
    (probaTryFails m x →
      Classifier.predictWithConfidence m x = (m.predictF x, 1)) ∧
    (∀ f prob, m.predictProba = some f → f x = .ok prob →
      prob.flatten ≠ [] →
      Classifier.predictWithConfidence m x =
        ([(listArgmax prob.flatten : ℤ)], listMax prob.flatten)) ∧
    (¬ supportsProba m → probaTryFails m x) := by
  refine ⟨fun h => ?_, fun f prob h1 h2 h3 => ?_, fun h => ?_⟩
  · unfold probaTryFails at h
    unfold Classifier.predictWithConfidence
    cases hp : m.predictProba with
    | none => rfl
    | some f =>
      simp only [hp] at h ⊢
      cases hf : f x with
      | error e => simp [hf]
      | ok prob =>
        simp only [hf] at h ⊢
        simp [h]
  · unfold Classifier.predictWithConfidence
    simp only [h1, h2]
    rw [if_neg h3]
  · unfold supportsProba at h
    rw [not_not] at h
    unfold probaTryFails
    rw [h]
    trivial

theorem claim_C3_witness :
    Classifier.predictWithConfidence
      { predictF := fun _ => [4], predictProba := none } [[2]] =
      ([4], 1) :=
  (claim_C3 { predictF := fun _ => [4], predictProba := none } [[2]]).1
    (by trivial)

/-- C4 counterexample: a fitted model supporting probability estimation,
on a batch of **two** samples with probability scores `[[9, 1], [1, 9]]`
and `predict(x) = [0, 1]`.  The confidence path returns
`([np.argmax(prob)], np.max(prob)) = ([0], 9)` — a single flat index
over the whole matrix and the global maximum — which is not the label
batch `[0, 1]` that `predict(x)` without confidence returns, so the
claimed equality fails. -/
theorem claim_C4_counterexample :
    Classifier.predictWithConfidence
      { predictF := fun _ => [0, 1],
        predictProba := some (fun _ => .ok [[9, 1], [1, 9]]) }
      [[0], [1]] = ([0], 9) ∧
    Classifier.predictPlain
      { predictF := fun _ => [0, 1],
        predictProba := some (fun _ => .ok [[9, 1], [1, 9]]) }
      [[0], [1]] = [0, 1] ∧
    ([0] : List ℤ) ≠ [0, 1] := by
  refine ⟨?_, rfl, by decide⟩
  show ([(listArgmax ([[9, 1], [1, 9]] :
    List (List ℚ)).flatten : ℤ)],
    listMax ([[9, 1], [1, 9]] : List (List ℚ)).flatten) =
    ([0], 9)
  decide

/-- C4 (amended): when the model supports probability estimation and the
`predict_proba` call returns a non-empty probability matrix,
`predict(x, get_confidence=True)` returns the single-element list holding
`np.argmax(prob)` — the first index of the maximum of the *flattened*
matrix — together with `np.max(prob)`, the global maximum probability;
this coincides with (predicted label, maximum class-probability of that
prediction) exactly in the single-sample case where the model's `predict`
agrees with the argmax of the probability row. -/
theorem claim_C4 (m : SkModel)
    (f : List (List ℚ) → Except String (List (List ℚ)))
    (x : List (List ℚ)) (prob : List (List ℚ))
    (h1 : m.predictProba = some f) (h2 : f x = .ok prob)
    (h3 : prob.flatten ≠ []) :
    Classifier.predictWithConfidence m x =
      ([(listArgmax prob.flatten : ℤ)], listMax prob.flatten) ∧
    (∀ row, prob = [row] → m.predictF x = [(listArgmax row : ℤ)] →
      Classifier.predictWithConfidence m x = (m.predictF x, listMax row)) := by
  have hmain : Classifier.predictWithConfidence m x =
      ([(listArgmax prob.flatten : ℤ)], listMax prob.flatten) := by
    unfold Classifier.predictWithConfidence
    simp [h1, h2, h3]
  refine ⟨hmain, fun row hrow hpred => ?_⟩
  subst hrow
  have hfl : ([row] : List (List ℚ)).flatten = row := by simp
  rw [hmain, hfl, ← hpred]

theorem claim_C4_witness :
    Classifier.predictWithConfidence
      { predictF := fun _ => [1],
        predictProba := some (fun _ => .ok [[1, 9]]) } [[5]] =
      ([1], listMax [(1 : ℚ), 9]) := by
  have h := (claim_C4
    { predictF := fun _ => [1],
      predictProba := some (fun _ => .ok [[1, 9]]) }
    (fun _ => .ok [[1, 9]]) [[5]] [[1, 9]]
    rfl rfl (by decide)).2 [1, 9] rfl (by decide)
  exact h

end Confidence

section SaveLoad

lemma append_ne_of_ne (a : String) {s t : String} (h : s ≠ t) :
    a ++ s ≠ a ++ t := by
  intro he
  apply h
  have hd : (a ++ s).data = (a ++ t).data := by rw [he]
  rw [String.data_append, String.data_append] at hd
  exact String.ext (List.append_cancel_left hd)

lemma pathJoin_ne (p : String) {s t : String} (h : s ≠ t) :
    pathJoin p s ≠ pathJoin p t :=
  append_ne_of_ne (p ++ "/") h

/-- C9: for a fitted classifier (`classifier` is not `None`), `save` to a
model folder followed by `load` from that folder succeeds and restores the
class mapping, the resolved config, and the opaque model state, so the
loaded classifier produces predictions identical to the original on every
input batch, with and without confidence. -/
theorem claim_C9 (c : Classifier) (m : SkModel) (s : Store) (p : String)
    (h : c.classifier = some m) :
    ∃ c2, Classifier.load (Classifier.save c p s) p = .ok c2 ∧
      (∀ x gc, Classifier.predict c2 x gc = Classifier.predict c x gc) ∧
      c2.class_mapping = c.class_mapping ∧
      c2.opt = c.opt ∧
      c2.classifier = some m := by
  have d12 : ("class_mapping.json" : String) ≠ "pipeline_opt.json" := by decide
  have d13 : ("class_mapping.json" : String) ≠ "classifier.pkl" := by decide
  have d23 : ("pipeline_opt.json" : String) ≠ "classifier.pkl" := by decide
  have hsave : Classifier.save c p s =
      storeWrite (storeWrite (storeWrite (storeClean s p)
        (pathJoin p "class_mapping.json") (.dictA c.class_mapping))
        (pathJoin p "pipeline_opt.json") (.optA c.opt))
        (pathJoin p "classifier.pkl") (.modelA m) := by
    unfold Classifier.save
    rw [h]
  have e1 : Classifier.save c p s (pathJoin p "class_mapping.json") =
      some (.dictA c.class_mapping) := by
    rw [hsave]
    unfold storeWrite
    rw [if_neg (pathJoin_ne p d13), if_neg (pathJoin_ne p d12), if_pos rfl]
  have e2 : Classifier.save c p s (pathJoin p "pipeline_opt.json") =
      some (.optA c.opt) := by
    rw [hsave]
    unfold storeWrite
    rw [if_neg (pathJoin_ne p d23), if_pos rfl]
  have e3 : Classifier.save c p s (pathJoin p "classifier.pkl") =
      some (.modelA m) := by
    rw [hsave]
    unfold storeWrite
    rw [if_pos rfl]
  refine ⟨{ opt := c.opt, class_mapping := c.class_mapping,
            class_mapping_inv :=
              match c.class_mapping with
              | none => none
              | some d => some (d.map (fun kv => (kv.2, kv.1))),
            classifier := some m }, ?_, ?_, rfl, rfl, rfl⟩
  · unfold Classifier.load
    rw [e1, e2, e3]
  · intro x gc
    unfold Classifier.predict
    rw [h]

theorem claim_C9_witness :
    ∃ c2,
      Classifier.load
        (Classifier.save
          { opt := .int 0, class_mapping := some [("cls_a", 0)],
            class_mapping_inv := none,
            classifier := some { predictF := fun _ => [0],
                                 predictProba := none } }
          "model" (fun _ => none)) "model" = .ok c2 ∧
      (∀ x gc, Classifier.predict c2 x gc =
        Classifier.predict
          { opt := .int 0, class_mapping := some [("cls_a", 0)],
            class_mapping_inv := none,
            classifier := some { predictF := fun _ => [0],
                                 predictProba := none } } x gc) := by
  obtain ⟨c2, hload, hpred, _, _, _⟩ := claim_C9
    { opt := .int 0, class_mapping := some [("cls_a", 0)],
      class_mapping_inv := none,
      classifier := some { predictF := fun _ => [0],
                           predictProba := none } }
    { predictF := fun _ => [0], predictProba := none }
    (fun _ => none) "model" rfl
  exact ⟨c2, hload, hpred⟩

end SaveLoad

section OutlierDistance

lemma colVar_nonneg (c : List ℚ) : 0 ≤ colVar c := by
  unfold colVar
  apply div_nonneg
  · apply List.sum_nonneg
    intro q hq
    rw [List.mem_map] at hq
    obtain ⟨v, _, rfl⟩ := hq
    positivity
  · exact_mod_cast Nat.zero_le _

lemma listMax_ge_of_mem (l : List ℚ) : ∀ a ∈ l, a ≤ listMax l := by
  induction l with
  | nil => intro a ha; cases ha
  | cons b t ih =>
    intro a ha
    cases t with
    | nil =>
      rw [List.mem_singleton] at ha
      subst ha
      exact le_of_eq rfl
    | cons b2 t2 =>
      rcases List.mem_cons.mp ha with h | h
      · subst h
        exact le_max_left _ _
      · exact le_trans (ih a h) (le_max_right _ _)

/-- C8: `OutlierByDistance.fit` computes per-column mean and spread with
every zero spread floored to a positive value (first conjunct: all stored
spread entries are strictly positive, so no division by zero);
`score_sample` is the negative Euclidean distance from the mean in
std-scaled space (carried as its square, `score_sample_sq`; the score
itself is `-√(score_sample_sq)`); `predict` returns `-1` on a row exactly
when its distance strictly exceeds the maximum distance observed on the
training rows at fit time — second conjunct: every training row is within
the frozen threshold — and `+1` otherwise.  Concretely, fitting
`[[1,1],[-1,-1]]` gives mean `[0,0]` and std `[1,1]`, the sample
`[10,10]` gets squared distance `200` (score `-√200 < -14`, a large
negative score) and `[0.1,-0.1]` gets squared distance `1/50`
(`-1/7 < score ≤ 0`, near zero), and `[10,10]` is flagged `-1`. -/
theorem claim_C8 :
    (∀ x : List (List ℚ), ∀ v ∈ (OutlierByDistance.fit x).x_var, 0 < v) ∧
    (∀ x : List (List ℚ), ∀ r ∈ x,
      (OutlierByDistance.fit x).compute_distance_sq r ≤
        (OutlierByDistance.fit x).max_distance_sq) ∧
    (∀ (st : OutlierByDistance) (r : List ℚ),
      (st.predictRow r = -1 ∨ st.predictRow r = 1) ∧
      (st.predictRow r = -1 ↔
        st.max_distance_sq < st.compute_distance_sq r)) ∧
    ((OutlierByDistance.fit [[1, 1], [-1, -1]]).x_mean = [0, 0] ∧
     (OutlierByDistance.fit [[1, 1], [-1, -1]]).x_var = [1, 1] ∧
     (OutlierByDistance.fit [[1, 1], [-1, -1]]).score_sample_sq [10, 10] =
       200 ∧
     (14 : ℚ) ^ 2 < 200 ∧
     (OutlierByDistance.fit [[1, 1], [-1, -1]]).score_sample_sq
       [1/10, -1/10] = 1/50 ∧
     (1/50 : ℚ) < (1/7) ^ 2 ∧
     (OutlierByDistance.fit [[1, 1], [-1, -1]]).predictRow [10, 10] = -1) := by
  have hcols : columns [[1, 1], [-1, -1]] = [[1, -1], [1, -1]] := by
    norm_num [columns]
  have hmean : colMean [1, -1] = 0 := by
    norm_num [colMean]
  have hvar : colVar [1, -1] = 1 := by
    norm_num [colVar, colMean]
  have hstate : OutlierByDistance.fit [[1, 1], [-1, -1]] =
      { x_mean := [0, 0], x_var := [1, 1],
        max_distance_sq := 2, min_distance_sq := 2 } := by
    unfold OutlierByDistance.fit
    rw [hcols]
    simp only [List.map_cons, List.map_nil, hmean, hvar]
    norm_num [distSq, List.zip, listMax, listMin]
  refine ⟨?_, ?_, ?_, ?_⟩
  · intro x v hv
    unfold OutlierByDistance.fit at hv
    simp only [List.mem_map] at hv
    obtain ⟨c, _, rfl⟩ := hv
    split_ifs with hz
    · norm_num
    · exact lt_of_le_of_ne (colVar_nonneg c) (Ne.symm hz)
  · intro x r hr
    show distSq ((columns x).map colMean) _ r ≤
      listMax (x.map (distSq ((columns x).map colMean) _))
    exact listMax_ge_of_mem _ _ (List.mem_map_of_mem _ hr)
  · intro st r
    unfold OutlierByDistance.predictRow
    split_ifs with h
    · exact ⟨Or.inl rfl, by simp [h]⟩
    · refine ⟨Or.inr rfl, ?_, fun hlt => absurd hlt h⟩
      intro h1
      exact absurd h1 (by decide)
  · refine ⟨?_, ?_, ?_, by norm_num, ?_, by norm_num, ?_⟩
    · rw [hstate]
    · rw [hstate]
    · rw [hstate]
      unfold OutlierByDistance.score_sample_sq
        OutlierByDistance.compute_distance_sq
      norm_num [List.zip]
    · rw [hstate]
      unfold OutlierByDistance.score_sample_sq
        OutlierByDistance.compute_distance_sq
      norm_num [List.zip]
    · rw [hstate]
      unfold OutlierByDistance.predictRow
        OutlierByDistance.compute_distance_sq
      norm_num [List.zip]

theorem claim_C8_witness :
    (OutlierByDistance.fit [[1, 1], [-1, -1]]).compute_distance_sq [1, 1] ≤
      (OutlierByDistance.fit [[1, 1], [-1, -1]]).max_distance_sq ∧
    ((OutlierByDistance.fit [[1, 1], [-1, -1]]).predictRow [10, 10] = -1 ∨
     (OutlierByDistance.fit [[1, 1], [-1, -1]]).predictRow [10, 10] = 1) := by
  have h := claim_C8
  exact ⟨h.2.1 [[1, 1], [-1, -1]] [1, 1] (by simp),
         (h.2.2.1 (OutlierByDistance.fit [[1, 1], [-1, -1]]) [10, 10]).1⟩

end OutlierDistance

section SupervisedBestTracking

lemma fitStep_best_mono {A C : Type} (st : SupSearchState A C)
    (c : SupCandidate A C) :
    st.best_f1_score ≤ (OptimizingImageClassifier.fitStep st c).best_f1_score := by
  unfold OptimizingImageClassifier.fitStep
  split_ifs with h
  · exact h
  · exact le_refl _

lemma fitRun_coherent {A C : Type} :
    ∀ (cs : List (SupCandidate A C)) (st : SupSearchState A C),
      SupCoherent st → SupCoherent (OptimizingImageClassifier.fitRun st cs) := by
  intro cs
  induction cs with
  | nil => intro st h; exact h
  | cons c cs ih =>
    intro st h
    apply ih
    unfold SupCoherent OptimizingImageClassifier.fitStep
    split_ifs
    · rfl
    · exact h

lemma fitRun_keeps_some {A C : Type} :
    ∀ (cs : List (SupCandidate A C)) (st : SupSearchState A C),
      st.best_candidate.isSome →
      (OptimizingImageClassifier.fitRun st cs).best_candidate.isSome := by
  intro cs
  induction cs with
  | nil => intro st h; exact h
  | cons c cs ih =>
    intro st h
    apply ih
    unfold OptimizingImageClassifier.fitStep
    split_ifs
    · rfl
    · exact h

/-- C1: in the supervised search loop of `OptimizingImageClassifier.fit`,
the recorded best score is non-decreasing after every candidate evaluation
(first conjunct); a candidate replaces the recorded best exactly when its
macro-F1 is greater than or equal to the current best — so on ties the
most-recently-evaluated candidate becomes the best — and on every such
replacement the resolved pipeline is immediately checkpointed while a
strictly smaller score leaves the state untouched (second conjunct); and
at run end the checkpointed artifact is exactly the recorded best
candidate with the recorded best score, which exists because macro-F1
scores are nonnegative and at least one candidate was evaluated (third and
fourth conjuncts). -/
theorem claim_C1 {A C : Type} (cands : List (SupCandidate A C))
    (h0 : cands ≠ []) (h1 : ∀ c ∈ cands, 0 ≤ c.score) :
    (∀ (st : SupSearchState A C) c,
      st.best_f1_score ≤ (OptimizingImageClassifier.fitStep st c).best_f1_score) ∧
    (∀ (st : SupSearchState A C) (c : SupCandidate A C),
      (st.best_f1_score ≤ c.score →
        OptimizingImageClassifier.fitStep st c =
          { best_f1_score := c.score,
            best_candidate := some (c.agg, c.cls),
            saved := some ((c.agg, c.cls), c.score) }) ∧
      (c.score < st.best_f1_score →
        OptimizingImageClassifier.fitStep st c = st)) ∧
    SupCoherent (OptimizingImageClassifier.fitRun
      (OptimizingImageClassifier.fitInit A C) cands) ∧
    (OptimizingImageClassifier.fitRun
      (OptimizingImageClassifier.fitInit A C) cands).best_candidate.isSome := by
  refine ⟨fun st c => fitStep_best_mono st c,
    fun st c => ⟨fun h => ?_, fun h => ?_⟩,
    fitRun_coherent cands _ rfl, ?_⟩
  · unfold OptimizingImageClassifier.fitStep
    rw [if_pos h]
  · unfold OptimizingImageClassifier.fitStep
    rw [if_neg (not_le.mpr h)]
  · cases cands with
    | nil => exact absurd rfl h0
    | cons c cs =>
      show (OptimizingImageClassifier.fitRun
        (OptimizingImageClassifier.fitStep
          (OptimizingImageClassifier.fitInit A C) c) cs).best_candidate.isSome
      apply fitRun_keeps_some
      have hge : c.score ≥
          (OptimizingImageClassifier.fitInit A C).best_f1_score :=
        h1 c (List.mem_cons_self c cs)
      unfold OptimizingImageClassifier.fitStep
      rw [if_pos hge]
      rfl

theorem claim_C1_witness :
    SupCoherent (OptimizingImageClassifier.fitRun
      (OptimizingImageClassifier.fitInit ℕ ℕ) [⟨0, 0, 1⟩]) ∧
    (OptimizingImageClassifier.fitRun
      (OptimizingImageClassifier.fitInit ℕ ℕ)
      [⟨0, 0, 1⟩]).best_candidate.isSome := by
  have h := claim_C1 [⟨0, 0, 1⟩] (by simp)
    (by
      intro c hc
      rw [List.mem_singleton] at hc
      subst hc
      show (0 : ℚ) ≤ 1
      norm_num)
  exact ⟨h.2.2.1, h.2.2.2⟩

end SupervisedBestTracking

end HIR
